import Mathlib

/-!
Verification of the ABCP step-1 price-reconciliation pipeline
(`tender/services/abcp_step1.py`) against its specification.

The Python functions are shallowly embedded as executable Lean
definitions.  Dict-shaped API records become structures of optional
string fields; Python truthiness of a string value (`x or y`) becomes
"`some s` with `s ≠ ""`".  Strings are modelled as Lean `String`
(sequences of Unicode code points), matching Python `str`.
-/

namespace AbcpStep1

-- ==================================================================
-- Definitions
-- ==================================================================

/-- Python `\s` character class over `str` (Unicode whitespace code points),
written on code points so that arithmetic reasoning applies. -/
def isPySpace (c : Char) : Bool :=
  c.toNat = 32 || c.toNat = 9 || c.toNat = 10 || c.toNat = 13 ||
  c.toNat = 11 || c.toNat = 12 || (28 ≤ c.toNat && c.toNat ≤ 31) ||
  c.toNat = 133 || c.toNat = 160 || c.toNat = 5760 ||
  (8192 ≤ c.toNat && c.toNat ≤ 8202) || c.toNat = 8232 || c.toNat = 8233 ||
  c.toNat = 8239 || c.toNat = 8287 || c.toNat = 12288

/-- The character class `[\s\-./]` removed by `normalize_article`
(45 = `-`, 46 = `.`, 47 = `/`). -/
def isStripChar (c : Char) : Bool :=
  isPySpace c || c.toNat = 45 || c.toNat = 46 || c.toNat = 47

/-- `normalize_article` (abcp_step1.py:319-322): `str(s or "").upper()` then
`re.sub(r"[\s\-./]", "", s)` — uppercase every character, then delete
whitespace, hyphen, dot and slash characters. -/
def normalize_article (s : String) : String :=
  ⟨(s.data.map Char.toUpper).filter (fun c => !(isStripChar c))⟩

-- ------------------------------------------------------------------
-- Markup stripping (`re.sub(r"<[^>]+>", " ", s)`, collapse `\s+`, strip)
-- ------------------------------------------------------------------

/-- One attempted match of the regex `<[^>]+>` immediately after a `<`:
succeeds when at least one non-`>` character is followed by `>`,
returning the remainder after the closing `>`. -/
def tagSplit (rest : List Char) : Option (List Char) :=
  let mid := rest.takeWhile (fun c => c != '>')
  let rem := rest.dropWhile (fun c => c != '>')
  match rem with
  | [] => none
  | _ :: r => if mid.isEmpty then none else some r

/-- Left-to-right replacement of every `<[^>]+>` match by a single space
(`re.sub(r"<[^>]+>", " ", s)`), with a fuel argument for structural
recursion.  One unit of fuel is spent per consumed character or match,
and a match consumes at least three characters, so `l.length` fuel is
always enough. -/
def stripTagsFuel : Nat → List Char → List Char
  | 0, l => l
  | _ + 1, [] => []
  | fuel + 1, c :: rest =>
    if c = '<' then
      match tagSplit rest with
      | some r => ' ' :: stripTagsFuel fuel r
      | none => '<' :: stripTagsFuel fuel rest
    else c :: stripTagsFuel fuel rest

/-- `re.sub(r"<[^>]+>", " ", s)` on a character list. -/
def stripTags (l : List Char) : List Char := stripTagsFuel l.length l

/-- Replacement of each maximal whitespace run by one space
(`re.sub(r"\s+", " ", s)`); the flag records whether the previous
character belonged to a run already replaced. -/
def collapseWSAux : Bool → List Char → List Char
  | _, [] => []
  | prev, c :: rest =>
    if isPySpace c then
      if prev then collapseWSAux true rest else ' ' :: collapseWSAux true rest
    else c :: collapseWSAux false rest

/-- Python `str.strip()`: drop leading and trailing whitespace. -/
def trimWS (l : List Char) : List Char :=
  ((l.dropWhile isPySpace).reverse.dropWhile isPySpace).reverse

/-- The tag-strip / whitespace-collapse / trim composite used by
`extract_stock_name` and `extract_deadline_text`
(abcp_step1.py:170-171, 192-193). -/
def stripMarkup (s : String) : String :=
  ⟨trimWS (collapseWSAux false (stripTags s.data))⟩

-- ------------------------------------------------------------------
-- Raw offer records and field extraction
-- ------------------------------------------------------------------

/-- A raw `search/articles` offer record (`item : dict`).  Every field is
read defensively in the source (`item.get(...)`), so every field is
optional here; values are modelled as strings. -/
structure Item where
  brand : Option String := none
  brandFix : Option String := none
  number : Option String := none
  numberFix : Option String := none
  description : Option String := none
  availability : Option String := none
  rest : Option String := none
  qty : Option String := none
  price : Option String := none
  priceOut : Option String := none
  priceInSiteCurrency : Option String := none
  officeName : Option String := none
  stockName : Option String := none
  warehouseName : Option String := none
  storageName : Option String := none
  deliveryOffice : Option String := none
  supplierDescription : Option String := none
  deadlineReplace : Option String := none
  distributorCode : Option String := none
  distributorId : Option Int := none
deriving DecidableEq, Repr

/-- Python `x or y` over an optional string `x`: a missing or empty
string falls through to the default. -/
def pyOr (o : Option String) (d : String) : String :=
  match o with
  | none => d
  | some s => if s = "" then d else s

/-- Python falsiness of an optional string value. -/
def pyFalsy (o : Option String) : Prop := o = none ∨ o = some ""

/-- The chained `or` of the warehouse-name candidates
(abcp_step1.py:151-158): first truthy value wins. -/
def firstTruthy : List (Option String) → Option String
  | [] => none
  | o :: restL =>
    match o with
    | some s => if s = "" then firstTruthy restL else some s
    | none => firstTruthy restL

/-- `extract_stock_name` (abcp_step1.py:143-179). -/
def extract_stock_name (item : Item) : String :=
  match firstTruthy [item.officeName, item.stockName, item.warehouseName,
      item.storageName, item.deliveryOffice, item.supplierDescription] with
  | none => ""
  | some raw => stripMarkup raw

/-- `extract_deadline_text` (abcp_step1.py:182-197): a truthy
`deadlineReplace` is markup-stripped and returned when non-empty;
otherwise the literal label «на складе» ("in stock"). -/
def extract_deadline_text (item : Item) : String :=
  match item.deadlineReplace with
  | some raw =>
    if raw = "" then "на складе"
    else if stripMarkup raw = "" then "на складе" else stripMarkup raw
  | none => "на складе"

/-- `extract_supplier_name` (abcp_step1.py:200-217): `distributorCode`
when truthy, else stringified `distributorId`, else empty. -/
def extract_supplier_name (item : Item) : String :=
  pyOr item.distributorCode
    (match item.distributorId with
     | some i => toString i
     | none => "")

/-- `extract_supplier_full_name` (abcp_step1.py:220-232): look up
`distributorId` in the loaded distributors map, defaulting to "". -/
def extract_supplier_full_name (item : Item) (dmap : Int → Option String) :
    String :=
  match item.distributorId with
  | none => ""
  | some i => (dmap i).getD ""

/-- One row of the Data sheet (the dict built by `extract_row_from_item`).
Field-name key: `rqBrand` = «Запрашиваемый бренд», `rqArticle` =
«Запрашиваемый артикул», `brand` = «Бренд», `article` = «Артикул»,
`description` = «Описание», `rqQty` = «Запрашиваемое кол-во»,
`availability` = «Наличие», `profileLabel` = «Расчет по профилю клиента»,
`supplier` = «Поставщик», `stock` = «Склад», `supplierFullName` =
«Название поставщика», `deadline` = «Срок», `price` = «Цена по профилю». -/
structure DataRow where
  rqBrand : String
  rqArticle : String
  brand : String
  article : String
  description : String
  rqQty : String
  availability : String
  profileLabel : String
  supplier : String
  stock : String
  supplierFullName : String
  deadline : String
  price : String
deriving DecidableEq, Repr

/-- `extract_row_from_item` (abcp_step1.py:340-378).  Note the source's
resolution order for brand/article: the raw `brand`/`number` field is
tried first, then `brandFix`/`numberFix`, then the request's value. -/
def extract_row_from_item (item : Item) (profile_id : String)
    (rq_brand rq_article : String) (rq_qty : Option String)
    (dmap : Int → Option String) : DataRow :=
  { rqBrand := rq_brand
    rqArticle := rq_article
    brand := pyOr item.brand (pyOr item.brandFix rq_brand)
    article := pyOr item.number (pyOr item.numberFix rq_article)
    description := pyOr item.description ""
    rqQty := rq_qty.getD ""
    availability := pyOr item.availability (pyOr item.rest (pyOr item.qty ""))
    profileLabel := profile_id
    supplier := extract_supplier_name item
    stock := extract_stock_name item
    supplierFullName := extract_supplier_full_name item dmap
    deadline := extract_deadline_text item
    price := pyOr item.price (pyOr item.priceOut (pyOr item.priceInSiteCurrency "")) }

/-- Modelled from the spec (§4.5, claim C1): the claimed resolution order
in which the corrected fields `brandFix`/`numberFix` take priority over
the raw `brand`/`number`.  Kept separate so the claim can be compared
with the source's actual order in `extract_row_from_item`. -/
def spec_resolved_brand (item : Item) (rq_brand : String) : String :=
  pyOr item.brandFix (pyOr item.brand rq_brand)

/-- Modelled from the spec (§4.5, claim C1): claimed article resolution,
`numberFix` before `number`. -/
def spec_resolved_article (item : Item) (rq_article : String) : String :=
  pyOr item.numberFix (pyOr item.number rq_article)

-- ------------------------------------------------------------------
-- Classification (run_abcp_pricing, abcp_step1.py:557-576)
-- ------------------------------------------------------------------

/-- The «Группа результата» label for exact matches. -/
def exactLabel : String := "Запрашиваемый артикул"

/-- The «Группа результата» label for cross-reference offers. -/
def crossLabel : String := "Кросс"

/-- The `_is_exact` predicate (abcp_step1.py:558-566). -/
def is_exact (r : DataRow) : Bool :=
  decide (normalize_article r.brand = normalize_article r.rqBrand) &&
  decide (normalize_article r.article = normalize_article r.rqArticle)

/-- A Data-sheet row after the match-group column is added. -/
structure ClassifiedRow extends DataRow where
  group : String
deriving DecidableEq, Repr

/-- Adding «Группа результата» and clearing «Запрашиваемое кол-во» on
non-exact rows (abcp_step1.py:557-576), expressed row-wise. -/
def classify_row (r : DataRow) : ClassifiedRow :=
  if is_exact r then
    { r with group := exactLabel }
  else
    { r with rqQty := "", group := crossLabel }

-- ------------------------------------------------------------------
-- Request extraction (run_abcp_pricing steps 4-5, abcp_step1.py:461-489)
-- ------------------------------------------------------------------

/-- One raw input spreadsheet row restricted to the detected columns:
a missing (NaN) cell is `none`. -/
structure InRow where
  brand : Option String
  article : Option String
  qty : Option String
deriving DecidableEq, Repr

/-- One record of `pairs` (a raw brand/article/qty triple that survived
`dropna`); quantity may be absent. -/
structure PairRec where
  brand : String
  article : String
  qty : Option String
deriving DecidableEq, Repr

/-- `dropna(subset=[brand_col, article_col])` restricted to one row. -/
def toPair (r : InRow) : Option PairRec :=
  match r.brand, r.article with
  | some b, some a => some { brand := b, article := a, qty := r.qty }
  | _, _ => none

/-- `drop_duplicates()` on exact record equality, keeping the first
occurrence and preserving first-seen order; `seen` accumulates the
records already emitted. -/
def dedupAux (seen : List PairRec) : List PairRec → List PairRec
  | [] => []
  | t :: restT =>
    if t ∈ seen then dedupAux seen restT
    else t :: dedupAux (t :: seen) restT

/-- Steps 4 of `run_abcp_pricing` (abcp_step1.py:461-474): select the
brand/article/qty columns, drop rows with a missing brand or article,
and deduplicate on the exact triple value. -/
def extract_pairs (rows : List InRow) : List PairRec :=
  dedupAux [] (rows.filterMap toPair)

/-- Python `str.strip()`. -/
def pyStrip (s : String) : String := ⟨trimWS s.data⟩

/-- One row of the Errors sheet.  `rqBrand` = «Запрашиваемый бренд»,
`rqArticle` = «Запрашиваемый артикул», `rqQty` = «Запрашиваемое кол-во»,
`comment` = «Комментарий». -/
structure ErrRow where
  rqBrand : String
  rqArticle : String
  rqQty : String
  comment : String
deriving DecidableEq, Repr

/-- The unmatched-request reason text ("no offers or API error"). -/
def noOffersComment : String := "Нет предложений или ошибка API"

/-- Step 5 of `run_abcp_pricing` (abcp_step1.py:486-530): per processed
pair, strip brand/article, call the search (modelled by the oracle
`search`), and either append one Errors row (zero offers) or extract
every offer into a Data row.  Returns (all_rows, errors_rows). -/
def process_pairs (search : String → String → List Item)
    (profile_label : String) (dmap : Int → Option String) :
    List PairRec → List DataRow × List ErrRow
  | [] => ([], [])
  | rec :: restP =>
    let brand := pyStrip rec.brand
    let article := pyStrip rec.article
    let items := search brand article
    let tail := process_pairs search profile_label dmap restP
    if items.isEmpty then
      (tail.1,
       { rqBrand := brand, rqArticle := article,
         rqQty := rec.qty.getD "", comment := noOffersComment } :: tail.2)
    else
      (items.map (fun it =>
         extract_row_from_item it profile_label brand article rec.qty dmap)
        ++ tail.1,
       tail.2)

/-- A raw offer carrying both a raw and a corrected value for brand and
for article, used to separate the source's resolution order from the
spec's claimed order. -/
def c1Item : Item :=
  { brand := some "RAW", brandFix := some "FIX",
    number := some "RAWN", numberFix := some "FIXN" }

/-- An exact-match offer for the request ("Bosch", "0 986 AB1"). -/
def c2Item : Item := { brand := some "BOSCH", number := some "0986AB1" }

/-- The (stripped brand, stripped article, quantity) triples exactly as
the request loop processes them (abcp_step1.py:487-489). -/
def processed_triples (rows : List InRow) :
    List (String × String × Option String) :=
  (extract_pairs rows).map
    (fun rec => (pyStrip rec.brand, pyStrip rec.article, rec.qty))

/-- Two input rows that are distinct as exact triples but identical
after normalization (case and hyphen differences only). -/
def c8Rows : List InRow :=
  [{ brand := some "Bosch", article := some "1-23", qty := some "1" },
   { brand := some "BOSCH", article := some "123", qty := some "1" }]

-- ------------------------------------------------------------------
-- HTTP boundary: call_search_articles and load_distributors_map
-- ------------------------------------------------------------------

/-- Outcome of one `requests.get` call: either the transport raised, or
a response with an HTTP status code and a body arrived.  (`requests`'
`raise_for_status` raises exactly for status codes 400-599.) -/
inductive HttpResult (β : Type) where
  | transportError
  | response (status : Nat) (body : β)
deriving DecidableEq, Repr

/-- Shape of a `search/articles` response body after `r.json()`:
a JSON array of offers, a JSON object with/without an `errorCode` key,
some other JSON value, or an unparsable body (`r.json()` raises). -/
inductive SearchBody where
  | jarr (items : List Item)
  | jobjWithErrorCode
  | jobjNoErrorCode
  | jother
  | notJson
deriving DecidableEq, Repr

/-- `call_search_articles` (abcp_step1.py:283-316) as a function of the
HTTP outcome.  The `try` block absorbs the transport error, the
`raise_for_status` error (status 400-599) and the `r.json()` error into
`[]`; a dict body with an `errorCode` key and any non-list body also
yield `[]`; a list body is returned unchanged.  Totality of this
function is the "never raises past the boundary" guarantee. -/
def call_search_articles : HttpResult SearchBody → List Item
  | .transportError => []
  | .response st body =>
    if 400 ≤ st ∧ st ≤ 599 then []
    else
      match body with
      | .jobjWithErrorCode => []
      | .jarr items => items
      | .jobjNoErrorCode => []
      | .jother => []
      | .notJson => []

/-- An arbitrary offer record for the C4 counterexample. -/
def c4Item : Item := { brand := some "B" }

/-- The value found under the `id` key of a `cp/distributors` entry:
either convertible by Python `int(...)`, or malformed (so that the
conversion raises and the entry is skipped). -/
inductive DistIdVal where
  | goodId (i : Int)
  | badId
deriving DecidableEq, Repr

/-- One entry of the `cp/distributors` list. -/
structure DistEntry where
  id : Option DistIdVal
  publicName : Option String := none
  name : Option String := none
deriving DecidableEq, Repr

/-- Shape of a `cp/distributors` response body. -/
inductive DistBody where
  | jlist (entries : List DistEntry)
  | jnotList
  | notJson
deriving DecidableEq, Repr

/-- The display name stored for an entry with identifier `i`
(abcp_step1.py:269): `publicName`, else `name`, else `str(id)`. -/
def display_name (e : DistEntry) (i : Int) : String :=
  pyOr e.publicName (pyOr e.name (toString i))

/-- One iteration of the `for row in data` loop (abcp_step1.py:263-273):
a good identifier inserts/overwrites its display name, any missing or
malformed identifier leaves the mapping unchanged (the per-entry
`except` clause). -/
def distStep (m : Int → Option String) (e : DistEntry) : Int → Option String :=
  match e.id with
  | some (.goodId i) => fun j => if j = i then some (display_name e i) else m j
  | _ => m

/-- The mapping accumulated over a well-formed entries list. -/
def load_entries (entries : List DistEntry) : Int → Option String :=
  entries.foldl distStep (fun _ => none)

/-- `load_distributors_map` (abcp_step1.py:235-280) as a function of the
HTTP outcome; failures collapse to the empty mapping. -/
def load_distributors_map : HttpResult DistBody → (Int → Option String)
  | .transportError => fun _ => none
  | .response st body =>
    if 400 ≤ st ∧ st ≤ 599 then fun _ => none
    else
      match body with
      | .jlist entries => load_entries entries
      | .jnotList => fun _ => none
      | .notJson => fun _ => none

/-- A directory entry used by the C9 counterexample. -/
def c9Entry : DistEntry := { id := some (.goodId 1), publicName := some "X" }

-- ------------------------------------------------------------------
-- C6: ordering of the Data sheet (abcp_step1.py:599-609)
-- ------------------------------------------------------------------

/-- Strict lexicographic order on character lists by code point — the
comparison Python applies to `str` values. -/
def charListLt : List Char → List Char → Bool
  | [], [] => false
  | [], _ :: _ => true
  | _ :: _, [] => false
  | a :: as, b :: bs =>
    if a.toNat < b.toNat then true
    else if b.toNat < a.toNat then false
    else charListLt as bs

/-- Python string `<`. -/
def strLt (a b : String) : Bool := charListLt a.data b.data

/-- Lexicographic `≤` on string tuples (the multi-key comparison used
by the five-key `sort_values`). -/
def keyListLe : List String → List String → Bool
  | [], _ => true
  | _ :: _, [] => false
  | a :: as, b :: bs =>
    if strLt a b then true
    else if strLt b a then false
    else keyListLe as bs

/-- The five sort keys of `sort_values` (abcp_step1.py:600-608):
requested brand, requested article, match group, brand, article. -/
def keyStrings (r : ClassifiedRow) : List String :=
  [r.rqBrand, r.rqArticle, r.group, r.brand, r.article]

/-- The row comparison induced by the five keys, all ascending. -/
def rowLe (x y : ClassifiedRow) : Bool := keyListLe (keyStrings x) (keyStrings y)

/-- Stable insertion of one row into an already-ordered list: a new row
is placed before the first strictly-or-equally later row, after any
earlier tied rows — the tie behaviour of a stable sort. -/
def insertRow (x : ClassifiedRow) : List ClassifiedRow → List ClassifiedRow
  | [] => [x]
  | y :: ys => if rowLe x y then x :: y :: ys else y :: insertRow x ys

/-- The final `sort_values` by the five keys (abcp_step1.py:599-609).
pandas' multi-key sort is stable, and a stable sort's output is uniquely
determined by the comparator and the input order, so stable insertion
sort computes the same list. -/
def sort_rows : List ClassifiedRow → List ClassifiedRow
  | [] => []
  | x :: xs => insertRow x (sort_rows xs)

/-- A classified row with five-key tuple ("A", "1", "Кросс", "X", "Y"). -/
def c6RowA : ClassifiedRow :=
  { rqBrand := "A", rqArticle := "1", brand := "X", article := "Y",
    description := "", rqQty := "", availability := "", profileLabel := "",
    supplier := "", stock := "", supplierFullName := "", deadline := "",
    price := "1", group := "Кросс" }

/-- Same as `c6RowA` except a different requested brand (distinct key). -/
def c6RowB : ClassifiedRow := { c6RowA with rqBrand := "B" }

/-- Same five-key tuple as `c6RowA` but a different price: tied under the
five sort keys while distinct as a row. -/
def c6RowTie : ClassifiedRow := { c6RowA with price := "2" }

-- ------------------------------------------------------------------
-- C7: column layout of the two sheets
-- ------------------------------------------------------------------

/-- `data_columns` (abcp_step1.py:537-552): the header list used when
there are no offer rows.  It lacks «Цена по профилю» and lists
«Расчет по профилю клиента» twice, exactly as in the source. -/
def data_columns : List String :=
  ["Запрашиваемый бренд", "Запрашиваемый артикул", "Группа результата",
   "Бренд", "Артикул", "Описание", "Запрашиваемое кол-во", "Наличие",
   "Расчет по профилю клиента", "Поставщик", "Склад",
   "Название поставщика", "Срок", "Расчет по профилю клиента"]

/-- The column selection applied when offer rows exist
(abcp_step1.py:579-597). -/
def ordered_data_columns : List String :=
  ["Запрашиваемый бренд", "Запрашиваемый артикул", "Группа результата",
   "Бренд", "Артикул", "Описание", "Запрашиваемое кол-во", "Наличие",
   "Цена по профилю", "Срок", "Склад", "Поставщик",
   "Название поставщика", "Расчет по профилю клиента"]

/-- `err_columns` (abcp_step1.py:614-619), used for the Errors sheet in
both the empty and the non-empty case. -/
def err_columns : List String :=
  ["Запрашиваемый бренд", "Запрашиваемый артикул", "Запрашиваемое кол-во",
   "Комментарий"]

/-- The Data sheet's header as a function of the accumulated offer rows
(abcp_step1.py:554-611): the reordered selection when rows exist, the
stale `data_columns` list when none do. -/
def report_data_columns (all_rows : List DataRow) : List String :=
  if all_rows.isEmpty then data_columns else ordered_data_columns

/-- Modelled from the spec (§4.7, claim C7): the claimed fixed offer
column order — requested brand, requested article, match group, brand,
article, description, requested quantity, availability, price, delivery
lead time, warehouse, supplier code, supplier display name, contextual
profile label — written with the sheet's Russian headers. -/
def claimed_data_columns : List String :=
  ["Запрашиваемый бренд", "Запрашиваемый артикул", "Группа результата",
   "Бренд", "Артикул", "Описание", "Запрашиваемое кол-во", "Наличие",
   "Цена по профилю", "Срок", "Склад", "Поставщик",
   "Название поставщика", "Расчет по профилю клиента"]

/-- Modelled from the spec (§4.7, claim C7): the claimed unmatched-table
columns — requested brand, requested article, requested quantity,
comment. -/
def claimed_err_columns : List String :=
  ["Запрашиваемый бренд", "Запрашиваемый артикул", "Запрашиваемое кол-во",
   "Комментарий"]

-- ==================================================================
-- Theorems
-- ==================================================================

-- ------------------------------------------------------------------
-- Character-level lemmas for the Normalizer
-- ------------------------------------------------------------------

theorem char_toNat_inj {a b : Char} (h : a.toNat = b.toNat) : a = b := by
  apply Char.ext
  apply UInt32.ext
  simpa [Char.toNat, UInt32.toNat] using h

theorem toNat_toUpper (c : Char) :
    c.toUpper.toNat =
      if 97 ≤ c.toNat ∧ c.toNat ≤ 122 then c.toNat - 32 else c.toNat := by
  unfold Char.toUpper
  split
  · next h =>
    rw [if_pos (by omega)]
    unfold Char.ofNat
    split
    · rfl
    · next hbad => exact absurd (Or.inl (by omega)) hbad
  · next h => rw [if_neg (by omega)]

theorem toUpper_toUpper (c : Char) : c.toUpper.toUpper = c.toUpper := by
  apply char_toNat_inj
  rw [toNat_toUpper c.toUpper, toNat_toUpper c]
  split_ifs <;> omega

theorem isStripChar_of_range {c : Char} (h1 : 65 ≤ c.toNat) (h2 : c.toNat ≤ 122) :
    isStripChar c = false := by
  simp only [isStripChar, isPySpace, Bool.or_eq_false_iff, Bool.and_eq_false_iff,
    decide_eq_false_iff_not]
  omega

theorem isStripChar_toUpper (c : Char) :
    isStripChar c.toUpper = isStripChar c := by
  by_cases h : 97 ≤ c.toNat ∧ c.toNat ≤ 122
  · have hu : c.toUpper.toNat = c.toNat - 32 := by
      rw [toNat_toUpper, if_pos h]
    rw [isStripChar_of_range (c := c.toUpper) (by omega) (by omega),
        isStripChar_of_range (by omega) (by omega)]
  · have hu : c.toUpper.toNat = c.toNat := by
      rw [toNat_toUpper, if_neg h]
    have : c.toUpper = c := char_toNat_inj hu
    rw [this]

theorem normalize_list_idem (l : List Char) :
    ((((l.map Char.toUpper).filter (fun c => !(isStripChar c))).map
        Char.toUpper).filter (fun c => !(isStripChar c))) =
      (l.map Char.toUpper).filter (fun c => !(isStripChar c)) := by
  induction l with
  | nil => rfl
  | cons c l ih =>
    by_cases hk : isStripChar c.toUpper
    · simp only [List.map_cons, List.filter_cons, hk, Bool.not_true,
        Bool.false_eq_true, if_neg, reduceIte]
      exact ih
    · simp only [List.map_cons, List.filter_cons, hk, Bool.not_false, if_pos,
        reduceIte, toUpper_toUpper, isStripChar_toUpper]
      rw [ih]

-- ------------------------------------------------------------------
-- Helper lemmas about pyOr and is_exact
-- ------------------------------------------------------------------

theorem pyOr_cases (o : Option String) (d : String) :
    (∃ s, o = some s ∧ s ≠ "" ∧ pyOr o d = s) ∨ (pyFalsy o ∧ pyOr o d = d) := by
  match o with
  | none => exact Or.inr ⟨Or.inl rfl, rfl⟩
  | some s =>
    by_cases h : s = ""
    · subst h
      exact Or.inr ⟨Or.inr rfl, by simp [pyOr]⟩
    · exact Or.inl ⟨s, rfl, h, by simp [pyOr, h]⟩

theorem is_exact_iff (r : DataRow) :
    is_exact r = true ↔
      (normalize_article r.brand = normalize_article r.rqBrand ∧
       normalize_article r.article = normalize_article r.rqArticle) := by
  simp [is_exact]

theorem exactLabel_ne_crossLabel : exactLabel ≠ crossLabel := by decide

/-- **C3.** `normalize_article` is idempotent, and it identifies
`"Bosch-1 234"` with `"BOSCH1234"` (case-, whitespace- and
punctuation-insensitivity at the claimed example). -/
theorem c3_normalize_article_idempotent_insensitive :
    (∀ s : String, normalize_article (normalize_article s) = normalize_article s)
    ∧ normalize_article "Bosch-1 234" = normalize_article "BOSCH1234" := by
  constructor
  · intro s
    show (⟨_⟩ : String) = ⟨_⟩
    congr 1
    exact normalize_list_idem s.data
  · decide

/-- **C1 (counterexample).** On an offer with both `brand`/`brandFix`
(`number`/`numberFix`) non-empty, the row built by the source keeps the
raw value, while the claimed priority (corrected field first, as in
`spec_resolved_brand`/`spec_resolved_article`) would keep the corrected
one — the claim is false as stated. -/
theorem c1_counterexample :
    (extract_row_from_item c1Item "" "RB" "RA" none (fun _ => none)).brand ≠
        spec_resolved_brand c1Item "RB" ∧
      (extract_row_from_item c1Item "" "RB" "RA" none (fun _ => none)).article ≠
        spec_resolved_article c1Item "RA" := by
  constructor <;> decide

/-- **C1 (amended).** The row's resulting brand is the offer's raw
`brand` field when truthy, else `brandFix` when truthy, else the
request's brand (the raw field takes priority over the corrected one);
likewise the resulting article is `number`, else `numberFix`, else the
request's article. -/
theorem c1_amended_resolution (item : Item) (p rqB rqA : String)
    (q : Option String) (dmap : Int → Option String) :
    ((∃ s, item.brand = some s ∧ s ≠ "" ∧
        (extract_row_from_item item p rqB rqA q dmap).brand = s) ∨
     (pyFalsy item.brand ∧ ∃ s, item.brandFix = some s ∧ s ≠ "" ∧
        (extract_row_from_item item p rqB rqA q dmap).brand = s) ∨
     (pyFalsy item.brand ∧ pyFalsy item.brandFix ∧
        (extract_row_from_item item p rqB rqA q dmap).brand = rqB)) ∧
    ((∃ s, item.number = some s ∧ s ≠ "" ∧
        (extract_row_from_item item p rqB rqA q dmap).article = s) ∨
     (pyFalsy item.number ∧ ∃ s, item.numberFix = some s ∧ s ≠ "" ∧
        (extract_row_from_item item p rqB rqA q dmap).article = s) ∨
     (pyFalsy item.number ∧ pyFalsy item.numberFix ∧
        (extract_row_from_item item p rqB rqA q dmap).article = rqA)) := by
  constructor
  · have hb : (extract_row_from_item item p rqB rqA q dmap).brand =
        pyOr item.brand (pyOr item.brandFix rqB) := rfl
    rcases pyOr_cases item.brand (pyOr item.brandFix rqB) with
      ⟨s, hs, hne, hv⟩ | ⟨hf, hv⟩
    · exact Or.inl ⟨s, hs, hne, by rw [hb, hv]⟩
    · rcases pyOr_cases item.brandFix rqB with ⟨s, hs, hne, hv2⟩ | ⟨hf2, hv2⟩
      · exact Or.inr (Or.inl ⟨hf, s, hs, hne, by rw [hb, hv, hv2]⟩)
      · exact Or.inr (Or.inr ⟨hf, hf2, by rw [hb, hv, hv2]⟩)
  · have ha : (extract_row_from_item item p rqB rqA q dmap).article =
        pyOr item.number (pyOr item.numberFix rqA) := rfl
    rcases pyOr_cases item.number (pyOr item.numberFix rqA) with
      ⟨s, hs, hne, hv⟩ | ⟨hf, hv⟩
    · exact Or.inl ⟨s, hs, hne, by rw [ha, hv]⟩
    · rcases pyOr_cases item.numberFix rqA with ⟨s, hs, hne, hv2⟩ | ⟨hf2, hv2⟩
      · exact Or.inr (Or.inl ⟨hf, s, hs, hne, by rw [ha, hv, hv2]⟩)
      · exact Or.inr (Or.inr ⟨hf, hf2, by rw [ha, hv, hv2]⟩)

/-- **C2.** For every offer extracted for a request `(rqB, rqA)`, the
classified row has `group = exactLabel` iff the normalized resulting
brand and article equal the normalized requested brand and article;
cross-reference rows get an empty requested quantity, and exact-match
rows keep the extracted requested quantity. -/
theorem c2_classification_law (item : Item) (p rqB rqA : String)
    (q : Option String) (dmap : Int → Option String) :
    ((classify_row (extract_row_from_item item p rqB rqA q dmap)).group =
        exactLabel ↔
      (normalize_article
          (extract_row_from_item item p rqB rqA q dmap).brand =
          normalize_article rqB ∧
        normalize_article
          (extract_row_from_item item p rqB rqA q dmap).article =
          normalize_article rqA)) ∧
    ((classify_row (extract_row_from_item item p rqB rqA q dmap)).group =
        crossLabel →
      (classify_row (extract_row_from_item item p rqB rqA q dmap)).rqQty = "") ∧
    ((classify_row (extract_row_from_item item p rqB rqA q dmap)).group =
        exactLabel →
      (classify_row (extract_row_from_item item p rqB rqA q dmap)).rqQty =
        (extract_row_from_item item p rqB rqA q dmap).rqQty) := by
  have hrb : (extract_row_from_item item p rqB rqA q dmap).rqBrand = rqB := rfl
  have hra : (extract_row_from_item item p rqB rqA q dmap).rqArticle = rqA := rfl
  by_cases he : is_exact (extract_row_from_item item p rqB rqA q dmap)
  · have hc : classify_row (extract_row_from_item item p rqB rqA q dmap) =
        { extract_row_from_item item p rqB rqA q dmap with group := exactLabel } := by
      simp [classify_row, he]
    refine ⟨?_, ?_, ?_⟩
    · rw [hc]
      have := (is_exact_iff _).mp he
      rw [hrb, hra] at this
      exact ⟨fun _ => this, fun _ => rfl⟩
    · intro hg
      rw [hc] at hg
      exact absurd hg exactLabel_ne_crossLabel
    · intro _
      rw [hc]
  · have hc : classify_row (extract_row_from_item item p rqB rqA q dmap) =
        { extract_row_from_item item p rqB rqA q dmap with
            rqQty := "", group := crossLabel } := by
      simp [classify_row, he]
    refine ⟨?_, ?_, ?_⟩
    · rw [hc]
      constructor
      · intro hg
        exact absurd hg.symm exactLabel_ne_crossLabel
      · intro hprop
        exfalso
        apply he
        rw [is_exact_iff, hrb, hra]
        exact hprop
    · intro _
      rw [hc]
    · intro hg
      rw [hc] at hg
      exact absurd hg.symm exactLabel_ne_crossLabel

/-- **C2 (witness).** Concrete instantiation of `c2_classification_law`:
the offer ("BOSCH", "0986AB1") for request ("Bosch", "0 986 AB1") is
classified exact and keeps the requested quantity "2". -/
theorem c2_classification_law_witness :
    (classify_row (extract_row_from_item c2Item "p" "Bosch" "0 986 AB1"
        (some "2") (fun _ => none))).group = exactLabel ∧
    (classify_row (extract_row_from_item c2Item "p" "Bosch" "0 986 AB1"
        (some "2") (fun _ => none))).rqQty = "2" := by
  have h := c2_classification_law c2Item "p" "Bosch" "0 986 AB1"
    (some "2") (fun _ => none)
  have hg : (classify_row (extract_row_from_item c2Item "p" "Bosch"
      "0 986 AB1" (some "2") (fun _ => none))).group = exactLabel :=
    h.1.mpr (by decide)
  refine ⟨hg, (h.2.2 hg).trans (by decide)⟩

/-- **C10.** `extract_deadline_text` always returns a non-empty string:
either the markup-stripped `deadlineReplace` text, or the literal
in-stock label «на складе». -/
theorem c10_deadline_text_total (item : Item) :
    extract_deadline_text item ≠ "" ∧
    ((∃ raw, item.deadlineReplace = some raw ∧
        extract_deadline_text item = stripMarkup raw) ∨
      extract_deadline_text item = "на складе") := by
  unfold extract_deadline_text
  rcases hd : item.deadlineReplace with _ | raw
  · exact ⟨by decide, Or.inr rfl⟩
  · by_cases h1 : raw = ""
    · simp only [h1, if_pos rfl]
      exact ⟨by decide, Or.inr rfl⟩
    · by_cases h2 : stripMarkup raw = ""
      · simp only [if_neg h1, h2, if_pos rfl]
        exact ⟨by decide, Or.inr rfl⟩
      · simp only [if_neg h1, if_neg h2]
        exact ⟨h2, Or.inl ⟨raw, rfl, rfl⟩⟩

/-- **C5.** The Errors sheet holds exactly one row, with comment
«Нет предложений или ошибка API», per processed request whose search
returned zero offers, in discovery order; and the Data rows come
exclusively from requests with at least one offer (the run continues
over all requests). -/
theorem c5_unmatched_requests (search : String → String → List Item)
    (p : String) (dmap : Int → Option String) (pairs : List PairRec) :
    (process_pairs search p dmap pairs).2 =
      (pairs.filter (fun rec =>
        (search (pyStrip rec.brand) (pyStrip rec.article)).isEmpty)).map
        (fun rec =>
          { rqBrand := pyStrip rec.brand, rqArticle := pyStrip rec.article,
            rqQty := rec.qty.getD "", comment := noOffersComment }) ∧
    (process_pairs search p dmap pairs).1 =
      (pairs.filter (fun rec =>
        !(search (pyStrip rec.brand) (pyStrip rec.article)).isEmpty)).flatMap
        (fun rec =>
          (search (pyStrip rec.brand) (pyStrip rec.article)).map
            (fun it => extract_row_from_item it p (pyStrip rec.brand)
              (pyStrip rec.article) rec.qty dmap)) := by
  induction pairs with
  | nil => exact ⟨rfl, rfl⟩
  | cons rec restP ih =>
    by_cases hcond :
        (search (pyStrip rec.brand) (pyStrip rec.article)).isEmpty
    · constructor
      · simp only [process_pairs, hcond, if_pos, List.filter_cons, if_true,
          List.map_cons, ih.1]
      · simp only [process_pairs, hcond, if_pos, List.filter_cons,
          Bool.not_true, if_false, Bool.false_eq_true, ih.2]
    · constructor
      · simp only [process_pairs, Bool.not_eq_true] at hcond ⊢
        simp only [hcond, List.filter_cons, Bool.false_eq_true, if_false, ih.1]
      · simp only [process_pairs, Bool.not_eq_true] at hcond ⊢
        simp only [hcond, List.filter_cons, Bool.not_false, if_true,
          List.flatMap_cons, Bool.false_eq_true, if_false, ih.2]

-- ------------------------------------------------------------------
-- C8: distinctness of the processed request triples
-- ------------------------------------------------------------------

theorem dedupAux_not_mem_seen :
    ∀ (l seen : List PairRec) (x : PairRec), x ∈ dedupAux seen l → x ∉ seen := by
  intro l
  induction l with
  | nil =>
    intro seen x hx
    simp [dedupAux] at hx
  | cons t restT ih =>
    intro seen x hx
    by_cases ht : t ∈ seen
    · simp only [dedupAux, if_pos ht] at hx
      exact ih seen x hx
    · simp only [dedupAux, if_neg ht] at hx
      rcases List.mem_cons.mp hx with h1 | h2
      · subst h1
        exact ht
      · intro hxs
        exact (ih _ x h2) (List.mem_cons_of_mem _ hxs)

theorem dedupAux_nodup :
    ∀ (l seen : List PairRec), (dedupAux seen l).Pairwise (fun a b => a ≠ b) := by
  intro l
  induction l with
  | nil =>
    intro seen
    simp [dedupAux]
  | cons t restT ih =>
    intro seen
    by_cases ht : t ∈ seen
    · simp only [dedupAux, if_pos ht]
      exact ih seen
    · simp only [dedupAux, if_neg ht]
      refine List.Pairwise.cons ?_ (ih (t :: seen))
      intro x hx heq
      exact (dedupAux_not_mem_seen restT (t :: seen) x hx)
        (heq ▸ List.mem_cons_self t seen)

/-- **C8 (counterexample).** Deduplication on the exact triple lets two
normalized-equal requests (equal quantity) through, so the processed
triples are not pairwise distinct under normalized equality. -/
theorem c8_counterexample :
    ¬ (processed_triples c8Rows).Pairwise (fun a b =>
        ¬ (normalize_article a.1 = normalize_article b.1 ∧
           normalize_article a.2.1 = normalize_article b.2.1 ∧
           a.2.2 = b.2.2)) := by
  decide

/-- **C8 (amended).** The deduplicated request triples of one run are
pairwise distinct under exact equality of the raw
(brand, article, quantity) record — not under normalized equality. -/
theorem c8_amended_exact_distinct (rows : List InRow) :
    (extract_pairs rows).Pairwise (fun a b => a ≠ b) :=
  dedupAux_nodup (rows.filterMap toPair) []

/-- **C4 (counterexample).** A non-200 success status (201) with a JSON
array body is returned as the offer list, not as `[]`:
`raise_for_status` only treats 400-599 as errors, so "empty on any
non-200 status" is false as stated. -/
theorem c4_counterexample :
    (201 : Nat) ≠ 200 ∧
      call_search_articles (.response 201 (.jarr [c4Item])) = [c4Item] ∧
      [c4Item] ≠ ([] : List Item) := by
  refine ⟨by decide, rfl, by decide⟩

/-- **C4 (amended).** `call_search_articles` returns `[]` on transport
failure, on an HTTP error status (400-599), on a JSON-object body with
an `errorCode` key, and on any body that is not a JSON array; for any
non-error status a JSON-array body is returned as the offer list
unchanged.  The embedding is a total function: no exception escapes. -/
theorem c4_amended_error_handling :
    call_search_articles .transportError = [] ∧
    (∀ (st : Nat) (body : SearchBody), 400 ≤ st → st ≤ 599 →
      call_search_articles (.response st body) = []) ∧
    (∀ st : Nat, call_search_articles (.response st .jobjWithErrorCode) = []) ∧
    (∀ st : Nat, call_search_articles (.response st .jobjNoErrorCode) = [] ∧
      call_search_articles (.response st .jother) = [] ∧
      call_search_articles (.response st .notJson) = []) ∧
    (∀ (st : Nat) (items : List Item), ¬ (400 ≤ st ∧ st ≤ 599) →
      call_search_articles (.response st (.jarr items)) = items) := by
  refine ⟨rfl, ?_, ?_, ?_, ?_⟩
  · intro st body h1 h2
    simp [call_search_articles, h1, h2]
  · intro st
    simp only [call_search_articles]
    split <;> rfl
  · intro st
    refine ⟨?_, ?_, ?_⟩ <;> (simp only [call_search_articles]; split <;> rfl)
  · intro st items hst
    simp [call_search_articles, hst]

/-- **C4 (witness).** `c4_amended_error_handling` at status 404 (error:
empty result) and status 200 (array body returned unchanged). -/
theorem c4_amended_error_handling_witness :
    call_search_articles (.response 404 (.jarr [c4Item])) = [] ∧
      call_search_articles (.response 200 (.jarr [c4Item])) = [c4Item] :=
  ⟨c4_amended_error_handling.2.1 404 (.jarr [c4Item]) (by decide) (by decide),
   c4_amended_error_handling.2.2.2.2 200 [c4Item] (by decide)⟩

/-- **C9 (counterexample).** A 201 response with a list body populates
the mapping, contradicting "empty mapping on any non-200 response":
`raise_for_status` only treats 400-599 as errors. -/
theorem c9_counterexample :
    (201 : Nat) ≠ 200 ∧
      load_distributors_map (.response 201 (.jlist [c9Entry])) 1 = some "X" := by
  refine ⟨by decide, rfl⟩

/-- **C9 (amended).** `load_distributors_map` returns the empty mapping
(and, being total, never raises) on transport error, on an HTTP error
status (400-599) and on a non-list body; an entry with a missing or
malformed identifier is skipped without affecting the rest of the load;
an entry with a good identifier stores `publicName` when truthy, else
`name` when truthy, else the stringified identifier. -/
theorem c9_amended_directory_load :
    (∀ i : Int, load_distributors_map .transportError i = none) ∧
    (∀ (st : Nat) (body : DistBody) (i : Int), 400 ≤ st → st ≤ 599 →
      load_distributors_map (.response st body) i = none) ∧
    (∀ (st : Nat) (i : Int), ¬ (400 ≤ st ∧ st ≤ 599) →
      load_distributors_map (.response st .jnotList) i = none ∧
      load_distributors_map (.response st .notJson) i = none) ∧
    (∀ (es1 es2 : List DistEntry) (e : DistEntry),
      (e.id = none ∨ e.id = some .badId) →
      load_entries (es1 ++ e :: es2) = load_entries (es1 ++ es2)) ∧
    (∀ (e : DistEntry) (i : Int), e.id = some (.goodId i) →
      load_entries [e] i = some (display_name e i)) ∧
    (∀ (e : DistEntry) (i : Int),
      (∃ s, e.publicName = some s ∧ s ≠ "" ∧ display_name e i = s) ∨
      (pyFalsy e.publicName ∧ ∃ s, e.name = some s ∧ s ≠ "" ∧
        display_name e i = s) ∨
      (pyFalsy e.publicName ∧ pyFalsy e.name ∧
        display_name e i = toString i)) := by
  refine ⟨fun _ => rfl, ?_, ?_, ?_, ?_, ?_⟩
  · intro st body i h1 h2
    simp [load_distributors_map, h1, h2]
  · intro st i hst
    constructor <;> simp [load_distributors_map, hst]
  · intro es1 es2 e he
    have hstep : ∀ m : Int → Option String, distStep m e = m := by
      intro m
      rcases he with h | h <;> simp [distStep, h]
    unfold load_entries
    rw [List.foldl_append, List.foldl_append, List.foldl_cons, hstep]
  · intro e i he
    simp [load_entries, distStep, he]
  · intro e i
    rcases pyOr_cases e.publicName (pyOr e.name (toString i)) with
      ⟨s, hs, hne, hv⟩ | ⟨hf, hv⟩
    · exact Or.inl ⟨s, hs, hne, hv⟩
    · rcases pyOr_cases e.name (toString i) with ⟨s, hs, hne, hv2⟩ | ⟨hf2, hv2⟩
      · exact Or.inr (Or.inl ⟨hf, s, hs, hne, by rw [display_name, hv, hv2]⟩)
      · exact Or.inr (Or.inr ⟨hf, hf2, by rw [display_name, hv, hv2]⟩)

/-- **C9 (witness).** `c9_amended_directory_load` at concrete inputs:
a 503 list response yields the empty mapping; a malformed-id entry in
the middle of a list is skipped; a single good entry stores its
public name. -/
theorem c9_amended_directory_load_witness :
    load_distributors_map (.response 503 (.jlist [c9Entry])) 1 = none ∧
      load_entries [c9Entry, { id := some .badId }] =
        load_entries [c9Entry] ∧
      load_entries [c9Entry] 1 = some "X" := by
  refine ⟨c9_amended_directory_load.2.1 503 (.jlist [c9Entry]) 1
      (by decide) (by decide), ?_, ?_⟩
  · have h := c9_amended_directory_load.2.2.2.1 [c9Entry] []
      ({ id := some .badId }) (Or.inr rfl)
    simpa using h
  · exact (c9_amended_directory_load.2.2.2.2.1 c9Entry 1 rfl).trans (by decide)

theorem charListLt_asymm :
    ∀ (a b : List Char), charListLt a b = true → charListLt b a = false
  | [], [] => by simp [charListLt]
  | [], _ :: _ => by simp [charListLt]
  | _ :: _, [] => by simp [charListLt]
  | a :: as, b :: bs => by
    intro h
    simp only [charListLt] at h ⊢
    by_cases h1 : a.toNat < b.toNat
    · rw [if_neg (show ¬ b.toNat < a.toNat by omega), if_pos h1]
    · by_cases h2 : b.toNat < a.toNat
      · rw [if_neg h1, if_pos h2] at h
        exact absurd h (by simp)
      · rw [if_neg h1, if_neg h2] at h
        rw [if_neg h2, if_neg h1]
        exact charListLt_asymm as bs h

theorem charListLt_eq_of_not :
    ∀ (a b : List Char), charListLt a b = false → charListLt b a = false → a = b
  | [], [] => by intros; rfl
  | [], _ :: _ => by intro h _; exact absurd h (by simp [charListLt])
  | _ :: _, [] => by intro _ h; exact absurd h (by simp [charListLt])
  | a :: as, b :: bs => by
    intro h1 h2
    simp only [charListLt] at h1 h2
    by_cases hab : a.toNat < b.toNat
    · rw [if_pos hab] at h1
      exact absurd h1 (by simp)
    · by_cases hba : b.toNat < a.toNat
      · rw [if_pos hba] at h2
        exact absurd h2 (by simp)
      · rw [if_neg hab, if_neg hba] at h1
        rw [if_neg hba, if_neg hab] at h2
        have hhd : a = b := char_toNat_inj (by omega)
        rw [hhd, charListLt_eq_of_not as bs h1 h2]

theorem charListLt_trans :
    ∀ (a b c : List Char), charListLt a b = true → charListLt b c = true →
      charListLt a c = true
  | [], [], _ => by intro h _; exact absurd h (by simp [charListLt])
  | [], _ :: _, [] => by intro _ h; exact absurd h (by simp [charListLt])
  | [], _ :: _, _ :: _ => by intros; simp [charListLt]
  | _ :: _, [], _ => by intro h _; exact absurd h (by simp [charListLt])
  | _ :: _, _ :: _, [] => by intro _ h; exact absurd h (by simp [charListLt])
  | a :: as, b :: bs, c :: cs => by
    intro h1 h2
    simp only [charListLt] at h1 h2 ⊢
    by_cases hab : a.toNat < b.toNat
    · by_cases hbc : b.toNat < c.toNat
      · rw [if_pos (show a.toNat < c.toNat by omega)]
      · by_cases hcb : c.toNat < b.toNat
        · rw [if_neg hbc, if_pos hcb] at h2
          exact absurd h2 (by simp)
        · rw [if_pos (show a.toNat < c.toNat by omega)]
    · by_cases hba : b.toNat < a.toNat
      · rw [if_neg hab, if_pos hba] at h1
        exact absurd h1 (by simp)
      · rw [if_neg hab, if_neg hba] at h1
        by_cases hbc : b.toNat < c.toNat
        · rw [if_pos (show a.toNat < c.toNat by omega)]
        · by_cases hcb : c.toNat < b.toNat
          · rw [if_neg hbc, if_pos hcb] at h2
            exact absurd h2 (by simp)
          · rw [if_neg hbc, if_neg hcb] at h2
            rw [if_neg (show ¬ a.toNat < c.toNat by omega),
                if_neg (show ¬ c.toNat < a.toNat by omega)]
            exact charListLt_trans as bs cs h1 h2

theorem strLt_asymm {a b : String} (h : strLt a b = true) : strLt b a = false :=
  charListLt_asymm a.data b.data h

theorem strLt_eq_of_not {a b : String} (h1 : strLt a b = false)
    (h2 : strLt b a = false) : a = b := by
  have hd : a.data = b.data := charListLt_eq_of_not a.data b.data h1 h2
  cases a with
  | mk da =>
    cases b with
    | mk db =>
      have hdd : da = db := by simpa using hd
      rw [hdd]

theorem strLt_trans {a b c : String} (h1 : strLt a b = true)
    (h2 : strLt b c = true) : strLt a c = true :=
  charListLt_trans a.data b.data c.data h1 h2

theorem keyListLe_trans :
    ∀ (x y z : List String), keyListLe x y = true → keyListLe y z = true →
      keyListLe x z = true
  | [], _, _ => by intros; rfl
  | _ :: _, [], _ => by intro h _; exact absurd h (by simp [keyListLe])
  | _ :: _, _ :: _, [] => by intro _ h; exact absurd h (by simp [keyListLe])
  | x :: xs, y :: ys, z :: zs => by
    intro h1 h2
    simp only [keyListLe] at h1 h2 ⊢
    by_cases hxy : strLt x y = true
    · by_cases hyz : strLt y z = true
      · rw [if_pos (strLt_trans hxy hyz)]
      · by_cases hzy : strLt z y = true
        · rw [if_neg (by simp [hyz]), if_pos hzy] at h2
          exact absurd h2 (by simp)
        · have : y = z :=
            strLt_eq_of_not (by simpa using hyz) (by simpa using hzy)
          subst this
          rw [if_pos hxy]
    · by_cases hyx : strLt y x = true
      · rw [if_neg hxy, if_pos hyx] at h1
        exact absurd h1 (by simp)
      · have : x = y :=
          strLt_eq_of_not (by simpa using hxy) (by simpa using hyx)
        subst this
        rw [if_neg hxy, if_neg hyx] at h1
        by_cases hxz : strLt x z = true
        · rw [if_pos hxz]
        · by_cases hzx : strLt z x = true
          · rw [if_neg hxz, if_pos hzx] at h2
            exact absurd h2 (by simp)
          · rw [if_neg hxz, if_neg hzx] at h2 ⊢
            exact keyListLe_trans xs ys zs h1 h2

theorem keyListLe_antisymm :
    ∀ (x y : List String), keyListLe x y = true → keyListLe y x = true → x = y
  | [], [] => by intros; rfl
  | [], _ :: _ => by intro _ h; exact absurd h (by simp [keyListLe])
  | _ :: _, [] => by intro h _; exact absurd h (by simp [keyListLe])
  | x :: xs, y :: ys => by
    intro h1 h2
    simp only [keyListLe] at h1 h2
    by_cases hxy : strLt x y = true
    · rw [if_neg (by simp [strLt_asymm hxy]), if_pos hxy] at h2
      exact absurd h2 (by simp)
    · by_cases hyx : strLt y x = true
      · rw [if_neg hxy, if_pos hyx] at h1
        exact absurd h1 (by simp)
      · have hhd : x = y :=
          strLt_eq_of_not (by simpa using hxy) (by simpa using hyx)
        subst hhd
        rw [if_neg hxy, if_neg hyx] at h1 h2
        rw [keyListLe_antisymm xs ys h1 h2]

theorem keyListLe_total :
    ∀ (x y : List String), (keyListLe x y || keyListLe y x) = true
  | [], _ => by simp [keyListLe]
  | _ :: _, [] => by simp [keyListLe]
  | x :: xs, y :: ys => by
    simp only [keyListLe]
    by_cases hxy : strLt x y = true
    · simp [hxy]
    · by_cases hyx : strLt y x = true
      · simp [hxy, hyx]
      · simp only [if_neg hxy, if_neg hyx]
        exact keyListLe_total xs ys

theorem rowLe_trans {x y z : ClassifiedRow} (h1 : rowLe x y = true)
    (h2 : rowLe y z = true) : rowLe x z = true :=
  keyListLe_trans _ _ _ h1 h2

theorem rowLe_of_not {x y : ClassifiedRow} (h : ¬ rowLe x y = true) :
    rowLe y x = true := by
  have htot := keyListLe_total (keyStrings x) (keyStrings y)
  rw [Bool.or_eq_true] at htot
  rcases htot with h1 | h1
  · exact absurd h1 h
  · exact h1

theorem insertRow_perm (x : ClassifiedRow) :
    ∀ l : List ClassifiedRow, (insertRow x l).Perm (x :: l)
  | [] => List.Perm.refl _
  | y :: ys => by
    simp only [insertRow]
    by_cases h : rowLe x y = true
    · rw [if_pos h]
    · rw [if_neg h]
      exact ((insertRow_perm x ys).cons y).trans (List.Perm.swap x y ys)

theorem sort_rows_perm : ∀ l : List ClassifiedRow, (sort_rows l).Perm l
  | [] => List.Perm.refl _
  | x :: xs =>
    (insertRow_perm x (sort_rows xs)).trans ((sort_rows_perm xs).cons x)

theorem insertRow_sorted (x : ClassifiedRow) :
    ∀ {l : List ClassifiedRow}, l.Pairwise (fun a b => rowLe a b = true) →
      (insertRow x l).Pairwise (fun a b => rowLe a b = true)
  | [], _ => by simp [insertRow]
  | y :: ys, hl => by
    rcases List.pairwise_cons.mp hl with ⟨hy, hys⟩
    simp only [insertRow]
    by_cases h : rowLe x y = true
    · rw [if_pos h]
      refine List.pairwise_cons.mpr ⟨?_, hl⟩
      intro b hb
      rcases List.mem_cons.mp hb with rfl | hbys
      · exact h
      · exact rowLe_trans h (hy b hbys)
    · rw [if_neg h]
      refine List.pairwise_cons.mpr ⟨?_, insertRow_sorted x hys⟩
      intro b hb
      have hmem := (insertRow_perm x ys).mem_iff.mp hb
      rcases List.mem_cons.mp hmem with rfl | hbys
      · exact rowLe_of_not h
      · exact hy b hbys

theorem sort_rows_sorted :
    ∀ l : List ClassifiedRow,
      (sort_rows l).Pairwise (fun a b => rowLe a b = true)
  | [] => List.Pairwise.nil
  | x :: xs => insertRow_sorted x (sort_rows_sorted xs)

theorem rowLe_antisymm_keys {a b : ClassifiedRow} (h1 : rowLe a b = true)
    (h2 : rowLe b a = true) : keyStrings a = keyStrings b :=
  keyListLe_antisymm _ _ h1 h2

theorem sort_rows_eq_of_perm {l l' : List ClassifiedRow} (hp : l.Perm l')
    (hk : l.Pairwise (fun a b => keyStrings a ≠ keyStrings b)) :
    sort_rows l = sort_rows l' := by
  have hperm : (sort_rows l).Perm (sort_rows l') :=
    ((sort_rows_perm l).trans hp).trans (sort_rows_perm l').symm
  have hk1 : (sort_rows l).Pairwise (fun a b => keyStrings a ≠ keyStrings b) :=
    ((sort_rows_perm l).pairwise_iff (fun h => Ne.symm h)).mpr hk
  have hk2 : (sort_rows l').Pairwise (fun a b => keyStrings a ≠ keyStrings b) :=
    ((sort_rows_perm l').pairwise_iff (fun h => Ne.symm h)).mpr
      ((hp.pairwise_iff (fun h => Ne.symm h)).mp hk)
  have s1 := (sort_rows_sorted l).and hk1
  have s2 := (sort_rows_sorted l').and hk2
  exact @List.eq_of_perm_of_sorted _
    (fun a b => rowLe a b = true ∧ keyStrings a ≠ keyStrings b)
    ⟨fun a b hab hba => absurd (rowLe_antisymm_keys hab.1 hba.1) hab.2⟩
    _ _ hperm s1 s2

/-- **C6 (amended).** The Data sheet is sorted ascending by the five-key
tuple (requested brand, requested article, match-group label, brand,
article); and whenever the rows' five-key tuples are pairwise distinct,
sorting any permutation of the same rows produces the identical list.
(With tied keys and distinct rows, permutation invariance fails — see
the counterexample.) -/
theorem c6_amended_sort_deterministic (l l' : List ClassifiedRow)
    (hp : l.Perm l')
    (hk : l.Pairwise (fun a b => keyStrings a ≠ keyStrings b)) :
    (sort_rows l).Pairwise (fun a b => rowLe a b = true) ∧
      sort_rows l = sort_rows l' :=
  ⟨sort_rows_sorted l, sort_rows_eq_of_perm hp hk⟩

/-- **C6 (witness).** `c6_amended_sort_deterministic` on two rows with
distinct keys and on their swapped permutation. -/
theorem c6_amended_sort_deterministic_witness :
    sort_rows [c6RowA, c6RowB] = sort_rows [c6RowB, c6RowA] ∧
      (sort_rows [c6RowA, c6RowB]).Pairwise (fun a b => rowLe a b = true) := by
  have h := c6_amended_sort_deterministic [c6RowA, c6RowB] [c6RowB, c6RowA]
    (List.Perm.swap c6RowB c6RowA []) (by decide)
  exact ⟨h.2, h.1⟩

/-- **C6 (counterexample).** Two rows tied on all five sort keys but
differing in price: sorting the two input orders (which are permutations
of each other) yields different row orders, so the five-key tuple does
not totally order the table and report building is not
permutation-invariant as claimed. -/
theorem c6_counterexample :
    ([c6RowA, c6RowTie] : List ClassifiedRow).Perm [c6RowTie, c6RowA] ∧
      sort_rows [c6RowA, c6RowTie] ≠ sort_rows [c6RowTie, c6RowA] :=
  ⟨List.Perm.swap c6RowTie c6RowA [], by decide⟩

/-- **C7.** With at least one offer row the Data sheet's columns match
the claimed fixed order, and the Errors sheet's columns always match the
claimed order; but with zero offer rows the Data sheet's header is the
divergent `data_columns` list (no price column, duplicated profile
column), so the "including when there are zero offer rows" part fails
on the code. -/
theorem c7_columns_divergence :
    (∀ (r : DataRow) (rs : List DataRow),
      report_data_columns (r :: rs) = claimed_data_columns) ∧
    err_columns = claimed_err_columns ∧
    report_data_columns [] ≠ claimed_data_columns := by
  refine ⟨fun r rs => rfl, rfl, by decide⟩

end AbcpStep1
